import Mathlib

/-!
# Verification of the DefiDash ETH/BTC LP dashboard data pipeline

Shallow embedding of the data aggregation and normalization pipeline of the
dashboard (src/unnamed/part_000 together with src/config.js): asset-class
resolution, fee parsing, pool normalization with wrapped-pair detection and
deduplication, validation, turnover scoring with APR, deterministic ranking
and categorization.

Modelling conventions:
* JS numbers are modelled as rationals (`ℚ`); `NaN` results are modelled as
  `none` in an `Option ℚ` where they can arise.
* Absent (`undefined`/`null`) JS values are `none` of an `Option`.
* `Math.random()` (used to synthesize pool ids) is modelled as an explicit
  supply `ℕ → String` of externally-chosen strings, consumed left to right
  exactly where the code calls it.
* `String.prototype.toLowerCase` and `trim`/`parseFloat` whitespace handling
  are modelled for the ASCII range, which covers all configured symbols.
-/

/-- Canonical asset class, per `CONFIG.ASSET_CLASSES` (config.js). -/
inductive AssetClass where
  | BTC
  | ETH
  | STABLE
deriving DecidableEq, Repr, Fintype

/-- Pair classification produced by `determinePairType`. -/
inductive PairType where
  | btcStable
  | ethStable
  | btcEth
  | wrapped
deriving DecidableEq, Repr

/-- A JS primitive value as it can appear in a fee field: number or string. -/
inductive JsPrim where
  | num (q : ℚ)
  | str (s : String)
deriving DecidableEq, Repr

/-- Curated alias lists, from `CONFIG.ASSET_CLASSES` in src/config.js. -/
def ASSET_CLASSES : AssetClass → List String
  | .BTC => ["btc", "wbtc", "cbbtc", "kbtc", "tbtc", "ebtc", "renbtc", "sbtc", "hbtc"]
  | .ETH => ["eth", "weth", "eeth", "steth", "wsteth", "reth", "cbeth", "seth", "meth"]
  | .STABLE => ["usdc", "usdt", "dai", "usdbc", "frax", "lusd", "usds", "crvusd", "tusd", "busd", "gusd", "usdp", "usdd"]

/-- `CONFIG.MIN_LIQUIDITY` (config.js): $100k minimum liquidity. -/
def MIN_LIQUIDITY : ℚ := 100000

/-- `CONFIG.MIN_VOLUME_24H` (config.js): $10k minimum 24h volume. -/
def MIN_VOLUME_24H : ℚ := 10000

/-- `CONFIG.DEFAULT_FEE_PERCENT` (config.js). -/
def DEFAULT_FEE_PERCENT : ℚ := 3/10

/-- `CONFIG.CHAIN_ID_MAP` (config.js): chain id normalization table. -/
def CHAIN_ID_MAP : String → Option String
  | "eth" => some "ethereum"
  | "ethereum" => some "ethereum"
  | "arbitrum" => some "arbitrum"
  | "optimism" => some "optimism"
  | "base" => some "base"
  | "polygon" => some "polygon"
  | "polygon_pos" => some "polygon"
  | "zksync" => some "zksync"
  | "linea" => some "linea"
  | "scroll" => some "scroll"
  | "blast" => some "blast"
  | "sol" => some "solana"
  | "bsc" => some "bsc"
  | _ => none

/-- `CONFIG.CHAIN_TO_GECKO_ID` (config.js). -/
def CHAIN_TO_GECKO_ID : String → Option String
  | "ethereum" => some "eth"
  | "arbitrum" => some "arbitrum"
  | "optimism" => some "optimism"
  | "base" => some "base"
  | "polygon" => some "polygon_pos"
  | "zksync" => some "zksync"
  | "linea" => some "linea"
  | "scroll" => some "scroll"
  | "blast" => some "blast"
  | _ => none

/-! ## JS value helpers -/

/-- JS truthiness of an optional string: `undefined`/`null` and `''` are falsy. -/
def truthyS (o : Option String) : Bool :=
  match o with
  | none => false
  | some s => s ≠ ""

/-- JS `a || b` for an optional string `a` with a string default `b`. -/
def jsOrS (a : Option String) (b : String) : String :=
  match a with
  | none => b
  | some s => if s = "" then b else s

/-- JS `a || null` for an optional string: empty strings collapse to `null`. -/
def jsOrNullS (a : Option String) : Option String :=
  if truthyS a then a else none

/-- JS truthiness of a fee primitive: `0` and `''` are falsy. -/
def truthyPrim (o : Option JsPrim) : Bool :=
  match o with
  | none => false
  | some (.num q) => q ≠ 0
  | some (.str s) => s ≠ ""

/-- ASCII whitespace, as skipped by JS `parseFloat` and removed by `trim`. -/
def isJsSpace (c : Char) : Bool :=
  c = ' ' ∨ c = '\t' ∨ c = '\n' ∨ c = '\r' ∨ c = '\x0b' ∨ c = '\x0c'

/-- Numeric value of a digit run, most significant first. -/
def digitsToNat (ds : List Char) : ℕ :=
  ds.foldl (fun acc c => 10 * acc + (c.toNat - '0'.toNat)) 0

/-- Decimal mantissa value of integer part `ip` and fraction part `fp`. -/
def mantissaVal (ip fp : List Char) : ℚ :=
  (digitsToNat ip : ℚ) + (digitsToNat fp : ℚ) / (10 : ℚ) ^ fp.length

/-- Optional exponent suffix `[eE][+-]?digits`; returns the multiplier exponent
and is ignored (exponent `0`) when malformed, as JS `parseFloat` does. -/
def jsExpVal (cs : List Char) : ℤ :=
  match cs with
  | 'e' :: rest | 'E' :: rest =>
    match rest with
    | '+' :: ds => if (ds.takeWhile Char.isDigit) = [] then 0 else (digitsToNat (ds.takeWhile Char.isDigit) : ℤ)
    | '-' :: ds => if (ds.takeWhile Char.isDigit) = [] then 0 else -(digitsToNat (ds.takeWhile Char.isDigit) : ℤ)
    | ds => if (ds.takeWhile Char.isDigit) = [] then 0 else (digitsToNat (ds.takeWhile Char.isDigit) : ℤ)
  | _ => 0

/-- JS `parseFloat` on a char list: leading whitespace, optional sign, decimal
digits with optional fraction and exponent; `none` models `NaN`.
(The special literal `Infinity` is outside this model.) -/
def jsParseFloatChars (cs0 : List Char) : Option ℚ :=
  let cs := cs0.dropWhile isJsSpace
  let sign : ℚ := match cs with | '-' :: _ => -1 | _ => 1
  let cs1 := match cs with | '+' :: r => r | '-' :: r => r | r => r
  let ip := cs1.takeWhile Char.isDigit
  let afterIp := cs1.dropWhile Char.isDigit
  let fp := match afterIp with
            | '.' :: r => r.takeWhile Char.isDigit
            | _ => []
  let afterFp := match afterIp with
                 | '.' :: r => r.dropWhile Char.isDigit
                 | r => r
  if ip = [] ∧ fp = [] then none
  else some (sign * mantissaVal ip fp * (10 : ℚ) ^ jsExpVal afterFp)

/-- JS `parseFloat` on a string. -/
def jsParseFloat (s : String) : Option ℚ :=
  jsParseFloatChars s.toList

/-- `parseFloat(x) || 0` applied to an optional raw string field. -/
def jsParseNum (o : Option String) : ℚ :=
  match o with
  | none => 0
  | some s => (jsParseFloat s).getD 0

/-- JS `String.prototype.trim` (ASCII whitespace). -/
def jsTrim (s : String) : String :=
  ⟨(s.toList.dropWhile isJsSpace).reverse.dropWhile isJsSpace |>.reverse⟩

/-- JS `String.prototype.replace(c, '')` with a single-character pattern:
removes the first occurrence only. -/
def removeFirstChar (c : Char) : List Char → List Char
  | [] => []
  | x :: xs => if x = c then xs else x :: removeFirstChar c xs

/-- JS `String.prototype.includes` for a single character. -/
def strContainsChar (s : String) (c : Char) : Bool :=
  s.toList.contains c

/-- JS `String.prototype.toLowerCase` (ASCII range). -/
def jsToLower (s : String) : String :=
  s.toLower

/-- Contiguous-substring test: JS `hay.includes(pat)` on char lists. -/
def charsContain (hay pat : List Char) : Bool :=
  match hay with
  | [] => pat.isEmpty
  | _ :: t => pat.isPrefixOf hay || charsContain t pat

/-! ## Fee parsing (`parseFeeToPercent`, src/unnamed/part_000 lines 99-143) -/

/-- `parseFeeToPercent`: normalizes a fee given as number or string to a
percentage; `none` models a `null` result. -/
def parseFeeToPercent (feeValue : Option JsPrim) : Option ℚ :=
  match feeValue with
  | none => none
  | some (.num q) =>
    if 100 < q then some (q / 10000)
    else if q < 1 then some (q * 100)
    else some q
  | some (.str s) =>
    let cleaned := jsTrim ⟨removeFirstChar '%' s.toList⟩
    match jsParseFloat cleaned with
    | none => none
    | some parsed =>
      if strContainsChar s '%' then some parsed
      else if 100 < parsed then some (parsed / 10000)
      else if parsed < 1 then some (parsed * 100)
      else some parsed

/-! ## Asset class resolution (src/unnamed/part_000 lines 332-376) -/

/-- One alias list entry matches when it occurs inside the lower-cased symbol
(JS `lowerSymbol.includes(alt)`). -/
def classMatches (assetClass : AssetClass) (lowerSymbol : String) : Bool :=
  (ASSET_CLASSES assetClass).any fun alt => charsContain lowerSymbol.toList alt.toList

/-- `resolveAssetClass`: first class (in `BTC`, `ETH`, `STABLE` order) with an
alias occurring in the lower-cased symbol; `none` if the symbol is falsy or
matches no class. -/
def resolveAssetClass (symbol : String) : Option AssetClass :=
  if symbol = "" then none
  else
    let lowerSymbol := jsToLower symbol
    if classMatches .BTC lowerSymbol then some .BTC
    else if classMatches .ETH lowerSymbol then some .ETH
    else if classMatches .STABLE lowerSymbol then some .STABLE
    else none

/-- `determinePairType` (lines 347-357). -/
def determinePairType (baseAsset quoteAsset : Option AssetClass) : Option PairType :=
  if baseAsset = some .BTC ∧ quoteAsset = some .BTC then some .wrapped
  else if baseAsset = some .ETH ∧ quoteAsset = some .ETH then some .wrapped
  else if baseAsset = some .BTC ∧ quoteAsset = some .STABLE then some .btcStable
  else if baseAsset = some .ETH ∧ quoteAsset = some .STABLE then some .ethStable
  else if baseAsset = some .BTC ∧ quoteAsset = some .ETH then some .btcEth
  else if baseAsset = some .ETH ∧ quoteAsset = some .BTC then some .btcEth
  else if baseAsset = some .STABLE ∧ quoteAsset = some .BTC then some .btcStable
  else if baseAsset = some .STABLE ∧ quoteAsset = some .ETH then some .ethStable
  else none

/-- `areDifferentVariants` (lines 362-376): two distinct (lower-cased) symbols
that both match some alias of the given class. -/
def areDifferentVariants (symbol1 symbol2 : String) (assetClass : Option AssetClass) : Bool :=
  match assetClass with
  | none => false
  | some ac =>
    if symbol1 = "" ∨ symbol2 = "" then false
    else
      let lower1 := jsToLower symbol1
      let lower2 := jsToLower symbol2
      if lower1 = lower2 then false
      else
        let variants := ASSET_CLASSES ac
        (variants.any fun v => charsContain lower1.toList v.toList) &&
        (variants.any fun v => charsContain lower2.toList v.toList)

/-! ## Raw records and the canonical pool schema -/

/-- A raw pool record as tagged by the fetch orchestrator.  JS objects are
duck-typed, so one record type carries both the GeckoTerminal shape
(`attributes.*`) and the DexScreener shape, every field optional. -/
structure RawRecord where
  source : Option String            -- `_source` provenance tag
  sourceRank : Option ℚ             -- `_sourceRank`
  chainHint : Option String         -- `_chain`
  id : Option String                -- GeckoTerminal `pool.id`
  baseTokenSymbol : Option String   -- GT `attributes.base_token_symbol`
  quoteTokenSymbol : Option String  -- GT `attributes.quote_token_symbol`
  attrName : Option String          -- GT `attributes.name`
  reserveInUsd : Option String      -- GT `attributes.reserve_in_usd`
  volumeUsdH24 : Option String      -- GT `attributes.volume_usd.h24`
  swapFee : Option JsPrim           -- GT `attributes.swap_fee`
  fee : Option JsPrim               -- GT `attributes.fee`
  poolFee : Option JsPrim           -- GT `attributes.pool_fee`
  networkIdentifier : Option String -- GT `attributes.network.identifier`
  networkId : Option String         -- GT `attributes.network_id`
  attrPoolUrl : Option String       -- GT `attributes.pool_url`
  dsBaseSymbol : Option String      -- DS `baseToken.symbol`
  dsQuoteSymbol : Option String     -- DS `quoteToken.symbol`
  pairAddress : Option String       -- DS `pairAddress`
  labels : Option (List String)     -- DS `labels`
  dsFeeTier : Option JsPrim         -- DS `feeTier`
  pairName : Option String          -- DS `pairName`
  chainId : Option String           -- DS `chainId`
  dsLiquidityUsd : Option String    -- DS `liquidity.usd`
  dsVolumeH24 : Option String       -- DS `volume.h24`
  url : Option String               -- DS `url`
deriving DecidableEq, Repr

/-- A raw record with every field absent, for building concrete test records. -/
def emptyRaw : RawRecord :=
  ⟨none, none, none, none, none, none, none, none, none, none, none, none, none,
   none, none, none, none, none, none, none, none, none, none, none, none⟩

/-- The canonical pool schema produced by the normalizers. -/
structure CanonicalPool where
  id : Option String
  name : String
  baseAsset : Option AssetClass
  quoteAsset : Option AssetClass
  pairType : Option PairType
  liquidityUsd : Option ℚ
  volumeUsd24h : Option ℚ
  feeTier : Option ℚ
  chain : String
  source : Option String
  sourceRank : Option ℚ
  score : Option ℚ
  apr : Option ℚ
  poolUrl : Option String
deriving DecidableEq, Repr

/-! ## Fee regex scanners

`extractGeckoTerminalFee` and the DexScreener fee logic scan display names
with the regexes `/(\d+\.?\d*)\s*%/` and `/\b(0\.01|0\.05|0\.3|0\.30|1|1\.0)\b/`.
Both are implemented as leftmost-match scanners over char lists; for these
patterns greedy matching without backtracking coincides with JS semantics. -/

/-- Try `(\d+\.?\d*)\s*%` at the start of `cs`; returns capture group 1. -/
def feePercentAt (cs : List Char) : Option (List Char) :=
  let ds := cs.takeWhile Char.isDigit
  if ds.isEmpty then none
  else
    let rest1 := cs.dropWhile Char.isDigit
    let cap2 := match rest1 with
                | '.' :: r => ds ++ '.' :: r.takeWhile Char.isDigit
                | _ => ds
    let rest2 := match rest1 with
                 | '.' :: r => r.dropWhile Char.isDigit
                 | r => r
    match rest2.dropWhile isJsSpace with
    | '%' :: _ => some cap2
    | _ => none

/-- Leftmost match of `(\d+\.?\d*)\s*%` in a char list (JS `str.match`). -/
def scanFeePercent : List Char → Option (List Char)
  | [] => none
  | c :: rest =>
    match feePercentAt (c :: rest) with
    | some cap => some cap
    | none => scanFeePercent rest

/-- JS word character (`\w`), as used by the `\b` boundary. -/
def isWordChar (c : Char) : Bool :=
  c.isAlphanum || c = '_'

/-- Alternatives of the fee-tier regex, in source order. -/
def tierAlternatives : List (List Char) :=
  [['0', '.', '0', '1'], ['0', '.', '0', '5'], ['0', '.', '3'],
   ['0', '.', '3', '0'], ['1'], ['1', '.', '0']]

/-- The char following a matched alternative must not be a word character
(the trailing `\b`; every alternative ends in a digit). -/
def tierBoundaryAfter (alt cs : List Char) : Bool :=
  match cs.drop alt.length with
  | [] => true
  | d :: _ => !isWordChar d

/-- Leftmost match of `\b(0\.01|0\.05|0\.3|0\.30|1|1\.0)\b`; `prevWord` says
whether the previous char was a word character (no boundary there). -/
def scanFeeTierAux (prevWord : Bool) : List Char → Option (List Char)
  | [] => none
  | c :: rest =>
    let here :=
      if prevWord then none
      else tierAlternatives.find? fun alt =>
        alt.isPrefixOf (c :: rest) && tierBoundaryAfter alt (c :: rest)
    match here with
    | some alt => some alt
    | none => scanFeeTierAux (isWordChar c) rest

/-- Leftmost fee-tier literal in a name (JS `name.match(/\b(...)\b/)`). -/
def scanFeeTier (cs : List Char) : Option (List Char) :=
  scanFeeTierAux false cs

/-! ## GeckoTerminal fee extraction (lines 381-401) -/

/-- `extractGeckoTerminalFee`: explicit fee fields first, then a `%` pattern
in the display name, then a known fee-tier literal in the name. -/
def extractGeckoTerminalFee (pool : RawRecord) : Option ℚ :=
  if truthyPrim pool.swapFee then parseFeeToPercent pool.swapFee
  else if truthyPrim pool.fee then parseFeeToPercent pool.fee
  else if truthyPrim pool.poolFee then parseFeeToPercent pool.poolFee
  else
    let name := jsOrS pool.attrName ""
    match scanFeePercent name.toList with
    | some cap => jsParseFloatChars cap
    | none =>
      match scanFeeTier name.toList with
      | some cap => jsParseFloatChars cap
      | none => none

/-! ## Normalizers (lines 406-556) -/

/-- The wrapped-pair test shared by both normalizers (lines 414-416, 469-471):
same non-null `BTC`/`ETH` class on both sides and genuinely different
alias-matching symbols. -/
def isWrappedPairOf (baseAssetClass quoteAssetClass : Option AssetClass)
    (baseSymbol quoteSymbol : String) : Bool :=
  decide (baseAssetClass = quoteAssetClass) &&
  decide (baseAssetClass = some .BTC ∨ baseAssetClass = some .ETH) &&
  areDifferentVariants baseSymbol quoteSymbol baseAssetClass

/-- The orientation-swap condition (lines 418-422, 473-477), evaluated only
for non-wrapped pairs: quote resolves to `BTC`, or quote resolves to `ETH`
while base resolves to `STABLE`. -/
def swapNeeded (baseAssetClass quoteAssetClass : Option AssetClass) : Bool :=
  decide (quoteAssetClass = some .BTC ∨
    (quoteAssetClass = some .ETH ∧ baseAssetClass = some .STABLE))

/-- GT chain fallback: `CHAIN_ID_MAP[networkId] || networkId || 'unknown'`
with `networkId = attrs.network?.identifier || attrs.network_id || ''`. -/
def gtNetworkChain (pool : RawRecord) : String :=
  let networkId := jsOrS pool.networkIdentifier (jsOrS pool.networkId "")
  jsOrS (CHAIN_ID_MAP networkId) (if networkId = "" then "unknown" else networkId)

/-- `normalizeGeckoTerminalPool` (lines 406-455).  `fresh` is the random
suffix `Math.random().toString(36).substr(2, 9)` used when the record has no
native id. -/
def normalizeGeckoTerminalPool (fresh : String) (pool : RawRecord) : Option CanonicalPool :=
  let baseSymbol := jsOrS pool.baseTokenSymbol ""
  let quoteSymbol := jsOrS pool.quoteTokenSymbol ""
  let baseAssetClass0 := resolveAssetClass baseSymbol
  let quoteAssetClass0 := resolveAssetClass quoteSymbol
  let isWrappedPair := isWrappedPairOf baseAssetClass0 quoteAssetClass0 baseSymbol quoteSymbol
  let doSwap := !isWrappedPair && swapNeeded baseAssetClass0 quoteAssetClass0
  let baseAssetClass := if doSwap then quoteAssetClass0 else baseAssetClass0
  let quoteAssetClass := if doSwap then baseAssetClass0 else quoteAssetClass0
  match determinePairType baseAssetClass quoteAssetClass with
  | none => none
  | some pairType =>
    if !isWrappedPair && decide (baseAssetClass = quoteAssetClass) then none
    else
      let chainName :=
        match pool.chainHint with
        | some c => if c ≠ "" ∧ c ≠ "unknown" then c else gtNetworkChain pool
        | none => gtNetworkChain pool
      some
        { id := if truthyS pool.id then pool.id else some ("gt-" ++ fresh)
          name := jsOrS pool.attrName (baseSymbol ++ "/" ++ quoteSymbol)
          baseAsset := baseAssetClass
          quoteAsset := quoteAssetClass
          pairType := some pairType
          liquidityUsd := some (jsParseNum pool.reserveInUsd)
          volumeUsd24h := some (jsParseNum pool.volumeUsdH24)
          feeTier := extractGeckoTerminalFee pool
          chain := chainName
          source := pool.source
          sourceRank := pool.sourceRank
          score := none
          apr := none
          poolUrl :=
            if truthyS pool.attrPoolUrl then pool.attrPoolUrl
            else if truthyS pool.id then
              some ("https://www.geckoterminal.com/"
                ++ jsOrS (CHAIN_TO_GECKO_ID chainName) chainName
                ++ "/pools/"
                ++ (((pool.id.getD "").splitOn "_").getLast?.getD ""))
            else none }

/-- JS number falsiness of an optional fee value (`!feeTier`): absent or `0`. -/
def feeFalsy (o : Option ℚ) : Bool :=
  match o with
  | none => true
  | some q => q = 0

/-- First label carrying a `%` pattern wins (lines 488-496). -/
def firstLabelFee : List String → Option ℚ
  | [] => none
  | l :: ls =>
    match scanFeePercent l.toList with
    | some cap => jsParseFloatChars cap
    | none => firstLabelFee ls

/-- DexScreener fee extraction (lines 487-507): labels, then the `feeTier`
field, then a `%` pattern in the pair name. -/
def dexScreenerFee (pool : RawRecord) (baseSymbol quoteSymbol : String) : Option ℚ :=
  let fee1 : Option ℚ :=
    match pool.labels with
    | some ls => firstLabelFee ls
    | none => none
  let fee2 : Option ℚ :=
    if feeFalsy fee1 && truthyPrim pool.dsFeeTier then parseFeeToPercent pool.dsFeeTier
    else fee1
  if feeFalsy fee2 then
    let pairName := jsOrS pool.pairName (baseSymbol ++ "/" ++ quoteSymbol)
    match scanFeePercent pairName.toList with
    | some cap => jsParseFloatChars cap
    | none => fee2
  else fee2

/-- `normalizeDexScreenerPool` (lines 460-525). -/
def normalizeDexScreenerPool (pool : RawRecord) : Option CanonicalPool :=
  let baseSymbol := jsOrS pool.dsBaseSymbol ""
  let quoteSymbol := jsOrS pool.dsQuoteSymbol ""
  let baseAssetClass0 := resolveAssetClass baseSymbol
  let quoteAssetClass0 := resolveAssetClass quoteSymbol
  let isWrappedPair := isWrappedPairOf baseAssetClass0 quoteAssetClass0 baseSymbol quoteSymbol
  let doSwap := !isWrappedPair && swapNeeded baseAssetClass0 quoteAssetClass0
  let baseAssetClass := if doSwap then quoteAssetClass0 else baseAssetClass0
  let quoteAssetClass := if doSwap then baseAssetClass0 else quoteAssetClass0
  match determinePairType baseAssetClass quoteAssetClass with
  | none => none
  | some pairType =>
    if !isWrappedPair && decide (baseAssetClass = quoteAssetClass) then none
    else
      some
        { id := pool.pairAddress
          name := baseSymbol ++ "/" ++ quoteSymbol
          baseAsset := baseAssetClass
          quoteAsset := quoteAssetClass
          pairType := some pairType
          liquidityUsd := some (jsParseNum pool.dsLiquidityUsd)
          volumeUsd24h := some (jsParseNum pool.dsVolumeH24)
          feeTier := dexScreenerFee pool baseSymbol quoteSymbol
          chain := jsOrS (CHAIN_ID_MAP (jsToLower (jsOrS pool.chainId "")))
                     (jsOrS pool.chainId "unknown")
          source := pool.source
          sourceRank := pool.sourceRank
          score := none
          apr := none
          poolUrl := jsOrNullS pool.url }

/-- One step of `normalizeAllPools` (lines 539-546): dispatch on `_source`.
The second component counts the `Math.random()` calls consumed so far: a
GeckoTerminal record without a truthy native id consumes exactly one. -/
def normalizeOne (supply : ℕ → String) (k : ℕ) (pool : RawRecord) :
    Option CanonicalPool × ℕ :=
  if pool.source = some "GeckoTerminal" then
    (normalizeGeckoTerminalPool (supply k) pool, if truthyS pool.id then k else k + 1)
  else if pool.source = some "DexScreener" then
    (normalizeDexScreenerPool pool, k)
  else (none, k)

/-- Loop of `normalizeAllPools` (lines 536-552) with the `seenIds` set made
explicit; first occurrence of an id wins, later duplicates are dropped. -/
def normalizeAllPoolsAux (supply : ℕ → String) :
    List RawRecord → ℕ → List (Option String) → List CanonicalPool
  | [], _, _ => []
  | pool :: rest, k, seenIds =>
    match normalizeOne supply k pool with
    | (some normalized, k1) =>
      if normalized.id ∈ seenIds then normalizeAllPoolsAux supply rest k1 seenIds
      else normalized :: normalizeAllPoolsAux supply rest k1 (normalized.id :: seenIds)
    | (none, k1) => normalizeAllPoolsAux supply rest k1 seenIds

/-- `normalizeAllPools` (lines 530-556). -/
def normalizeAllPools (supply : ℕ → String) (rawPools : List RawRecord) : List CanonicalPool :=
  normalizeAllPoolsAux supply rawPools 0 []

/-- The normalized records before deduplication, in input order (used to state
what the dedup loop keeps). -/
def normalizedSeq (supply : ℕ → String) : List RawRecord → ℕ → List CanonicalPool
  | [], _ => []
  | pool :: rest, k =>
    match normalizeOne supply k pool with
    | (some normalized, k1) => normalized :: normalizedSeq supply rest k1
    | (none, k1) => normalizedSeq supply rest k1

/-! ## Validation (lines 565-581) -/

/-- `validatePool`: JS-falsy `id`/`name`/`baseAsset`/`pairType` reject, then
the `typeof === 'number'` checks, then the configured thresholds and the
zero-division guard. -/
def validatePool (pool : CanonicalPool) : Bool :=
  if !truthyS pool.id || pool.name = "" || pool.baseAsset = none || pool.pairType = none then
    false
  else
    match pool.liquidityUsd, pool.volumeUsd24h with
    | some liq, some vol =>
      if liq < MIN_LIQUIDITY then false
      else if vol < MIN_VOLUME_24H then false
      else if liq ≤ 0 then false
      else true
    | _, _ => false

/-- `filterPools` (lines 577-581). -/
def filterPools (pools : List CanonicalPool) : List CanonicalPool :=
  pools.filter validatePool

/-! ## Scoring and ranking (lines 82-93, 586-614) -/

/-- `calculateTurnoverScore` (lines 586-589); `none` models the `NaN` that JS
produces when a liquidity/volume field is not a number. -/
def calculateTurnoverScore (pool : CanonicalPool) : Option ℚ :=
  match pool.liquidityUsd with
  | some liq =>
    if liq ≤ 0 then some 0
    else
      match pool.volumeUsd24h with
      | some vol => some (vol / liq)
      | none => none
  | none => none

/-- `calculateApr` (lines 86-93): `(volume * feeRate * 365) / liquidity * 100`,
with `0` when liquidity is falsy/non-positive or the fee is falsy. -/
def calculateApr (volumeUsd24h liquidityUsd : Option ℚ) (feePercent : ℚ) : Option ℚ :=
  match liquidityUsd with
  | none => some 0
  | some liq =>
    if liq = 0 then some 0
    else if liq ≤ 0 then some 0
    else if feePercent = 0 then some 0
    else
      match volumeUsd24h with
      | none => none
      | some vol => some (vol * (feePercent / 100) * 365 / liq * 100)

/-- `pool.feeTier || CONFIG.DEFAULT_FEE_PERCENT || 0.3` (line 598): a null or
zero fee tier falls back to the default; the final `|| 0.3` is dead because
the configured default is itself truthy. -/
def jsEffectiveFee (feeTier : Option ℚ) : ℚ :=
  match feeTier with
  | some f => if f = 0 then DEFAULT_FEE_PERCENT else f
  | none => DEFAULT_FEE_PERCENT

/-- The map step of `scoreAndRankPools` (lines 595-606). -/
def scorePool (pool : CanonicalPool) : CanonicalPool :=
  { pool with
    score := calculateTurnoverScore pool
    apr := calculateApr pool.volumeUsd24h pool.liquidityUsd (jsEffectiveFee pool.feeTier) }

/-- Sort key accessors.  A `NaN` score never arises for validated pools; the
JS comparator's behaviour on `NaN` is unspecified, modelled as `0`. -/
def scoreKey (p : CanonicalPool) : ℚ := p.score.getD 0

/-- Liquidity sort key (see `scoreKey`). -/
def liqKey (p : CanonicalPool) : ℚ := p.liquidityUsd.getD 0

/-- `a` may stay before `b` under the comparator of lines 608-611: the
comparator value `(a, b) ↦ b.score - a.score`, falling back to
`b.liquidityUsd - a.liquidityUsd` on equal scores, is `≤ 0`. -/
def rankLE (a b : CanonicalPool) : Bool :=
  if scoreKey a = scoreKey b then decide (liqKey b ≤ liqKey a)
  else decide (scoreKey b < scoreKey a)

/-- Stable insertion w.r.t. `rankLE`.  JS `Array.prototype.sort` is stable and
its comparator here is a consistent total preorder, so the engine's result
coincides with any stable sort. -/
def rankInsert (x : CanonicalPool) : List CanonicalPool → List CanonicalPool
  | [] => [x]
  | y :: ys => if rankLE x y then x :: y :: ys else y :: rankInsert x ys

/-- Stable sort w.r.t. `rankLE` (model of `scoredPools.sort(comparator)`). -/
def rankSort : List CanonicalPool → List CanonicalPool
  | [] => []
  | x :: xs => rankInsert x (rankSort xs)

/-- `scoreAndRankPools` (lines 594-614). -/
def scoreAndRankPools (pools : List CanonicalPool) : List CanonicalPool :=
  rankSort (pools.map scorePool)

/-! ## Categorization (lines 619-638) -/

/-- The four category buckets, in the fixed key order of the source object. -/
structure Categories where
  btcStable : List CanonicalPool
  ethStable : List CanonicalPool
  btcEth : List CanonicalPool
  wrapped : List CanonicalPool
deriving DecidableEq, Repr

/-- `categorizePools`: bucket by pair type in input order (records with an
unknown pair type are skipped), then score-and-rank each bucket. -/
def categorizePools (pools : List CanonicalPool) : Categories :=
  { btcStable := scoreAndRankPools (pools.filter fun p => p.pairType = some .btcStable)
    ethStable := scoreAndRankPools (pools.filter fun p => p.pairType = some .ethStable)
    btcEth := scoreAndRankPools (pools.filter fun p => p.pairType = some .btcEth)
    wrapped := scoreAndRankPools (pools.filter fun p => p.pairType = some .wrapped) }

/-- The processing pipeline of `mainApp` (lines 951-953): normalize, filter,
categorize, with the synthesized-id supply made explicit. -/
def runPipeline (supply : ℕ → String) (rawPools : List RawRecord) : Categories :=
  categorizePools (filterPools (normalizeAllPools supply rawPools))

/-! ## Concrete records and pools used by witnesses and counterexamples -/

/-- A pool as the GT normalizer would produce for a healthy BTC/stable pair. -/
def demoPool : CanonicalPool :=
  { id := some "eth_0xabc", name := "WBTC/USDC", baseAsset := some .BTC,
    quoteAsset := some .STABLE, pairType := some .btcStable,
    liquidityUsd := some 500000, volumeUsd24h := some 50000, feeTier := none,
    chain := "ethereum", source := some "GeckoTerminal", sourceRank := some 1,
    score := none, apr := none, poolUrl := none }

/-- A second pool with a different turnover, for ordering witnesses. -/
def demoPoolB : CanonicalPool :=
  { demoPool with
    id := some "eth_0xdef"
    name := "WETH/USDT"
    pairType := some .ethStable
    baseAsset := some .ETH
    liquidityUsd := some 300000
    volumeUsd24h := some 60000 }

/-- A pool whose extracted fee tier is the number `0` (e.g. a `"0%"` label). -/
def feeZeroPool : CanonicalPool :=
  { demoPool with
    feeTier := some 0
    liquidityUsd := some 1000000
    volumeUsd24h := some 250000 }

/-- Key-equality predicate for sort stability statements: exact score `s`
and liquidity `q`. -/
def sameRankKey (s q : ℚ) (p : CanonicalPool) : Bool :=
  decide (scoreKey p = s ∧ liqKey p = q)

/-- Position of each class in the `for … in CONFIG.ASSET_CLASSES` iteration
order (`BTC`, `ETH`, `STABLE`). -/
def classIdx : AssetClass → ℕ
  | .BTC => 0
  | .ETH => 1
  | .STABLE => 2

/-- The wrapped-pair condition of `normalizeGeckoTerminalPool`, expressed on
the raw record (lines 414-416). -/
def gtWrappedRaw (pool : RawRecord) : Bool :=
  isWrappedPairOf (resolveAssetClass (jsOrS pool.baseTokenSymbol ""))
    (resolveAssetClass (jsOrS pool.quoteTokenSymbol ""))
    (jsOrS pool.baseTokenSymbol "") (jsOrS pool.quoteTokenSymbol "")

/-- A raw GT record pairing two different BTC-pegged tokens (spec's
wrapped-pair example). -/
def wbtcTbtcRecord : RawRecord :=
  { emptyRaw with
    source := some "GeckoTerminal"
    sourceRank := some 1
    id := some "eth_0xw1"
    baseTokenSymbol := some "wbtc"
    quoteTokenSymbol := some "tbtc"
    reserveInUsd := some "200000"
    volumeUsdH24 := some "20000" }

/-- A raw GT record whose normalized id collides with `dsDupRecord`. -/
def gtDupRecord : RawRecord :=
  { emptyRaw with
    source := some "GeckoTerminal"
    sourceRank := some 1
    id := some "shared-id"
    baseTokenSymbol := some "wbtc"
    quoteTokenSymbol := some "usdc"
    reserveInUsd := some "500000"
    volumeUsdH24 := some "50000" }

/-- A raw DexScreener record whose pair address collides with
`gtDupRecord`'s id. -/
def dsDupRecord : RawRecord :=
  { emptyRaw with
    source := some "DexScreener"
    sourceRank := some 2
    pairAddress := some "shared-id"
    dsBaseSymbol := some "weth"
    dsQuoteSymbol := some "usdt"
    dsLiquidityUsd := some "300000"
    dsVolumeH24 := some "60000" }

/-- A healthy raw GT record with no native id: normalization draws a
synthesized id from the random supply. -/
def noIdRecord : RawRecord :=
  { emptyRaw with
    source := some "GeckoTerminal"
    sourceRank := some 1
    baseTokenSymbol := some "wbtc"
    quoteTokenSymbol := some "usdc"
    attrName := some "WBTC/USDC"
    reserveInUsd := some "500000"
    volumeUsdH24 := some "50000" }

/-- A raw record with an unrecognized provenance tag but otherwise complete
DexScreener content. -/
def unknownSourceRecord : RawRecord :=
  { emptyRaw with
    source := some "DeFiLlama"
    sourceRank := some 3
    pairAddress := some "0xextra"
    dsBaseSymbol := some "wbtc"
    dsQuoteSymbol := some "usdc"
    dsLiquidityUsd := some "900000"
    dsVolumeH24 := some "90000" }

/-! ## C2: fee parsing -/

/-- **C2.**  `parseFeeToPercent` normalizes any fee input to a percentage: a
number (or `%`-free numeric string) above `100` is divided by `10000`, below
`1` it is multiplied by `100`, between `1` and `100` it is returned unchanged;
a string carrying a `%` marker is returned as the parsed number with no
heuristic; `3000 ↦ 0.30`, `"0.3%" ↦ 0.3`, `0.003 ↦ 0.3`; absent or
unparsable inputs map to `null`. -/
theorem parseFeeToPercent_spec :
    (∀ q : ℚ, 100 < q → parseFeeToPercent (some (.num q)) = some (q / 10000)) ∧
    (∀ q : ℚ, q < 1 → parseFeeToPercent (some (.num q)) = some (q * 100)) ∧
    (∀ q : ℚ, 1 ≤ q → q ≤ 100 → parseFeeToPercent (some (.num q)) = some q) ∧
    (∀ (s : String) (p : ℚ), strContainsChar s '%' = true →
      jsParseFloat (jsTrim ⟨removeFirstChar '%' s.toList⟩) = some p →
      parseFeeToPercent (some (.str s)) = some p) ∧
    (∀ (s : String) (p : ℚ), strContainsChar s '%' = false →
      jsParseFloat (jsTrim ⟨removeFirstChar '%' s.toList⟩) = some p →
      parseFeeToPercent (some (.str s)) =
        some (if 100 < p then p / 10000 else if p < 1 then p * 100 else p)) ∧
    (∀ s : String, jsParseFloat (jsTrim ⟨removeFirstChar '%' s.toList⟩) = none →
      parseFeeToPercent (some (.str s)) = none) ∧
    parseFeeToPercent none = none ∧
    parseFeeToPercent (some (.num 3000)) = some (3/10) ∧
    parseFeeToPercent (some (.str "0.3%")) = some (3/10) ∧
    parseFeeToPercent (some (.num (3/1000))) = some (3/10) := by
  refine ⟨?_, ?_, ?_, ?_, ?_, ?_, ?_, ?_, ?_, ?_⟩
  · intro q hq
    simp only [parseFeeToPercent, if_pos hq]
  · intro q hq
    have h1 : ¬ (100 : ℚ) < q := by linarith
    simp only [parseFeeToPercent, if_neg h1, if_pos hq]
  · intro q h1 h2
    have h3 : ¬ (100 : ℚ) < q := by linarith
    have h4 : ¬ q < 1 := by linarith
    simp only [parseFeeToPercent, if_neg h3, if_neg h4]
  · intro s p hpct hparse
    simp only [parseFeeToPercent, hparse, hpct, if_pos]
  · intro s p hpct hparse
    simp only [parseFeeToPercent, hparse, hpct, Bool.false_eq_true, if_false]
    split_ifs <;> rfl
  · intro s hparse
    simp only [parseFeeToPercent, hparse]
  · rfl
  · with_unfolding_all decide
  · with_unfolding_all decide
  · with_unfolding_all decide

/-- Witness for C2 at a concrete input. -/
theorem parseFeeToPercent_spec_witness :
    parseFeeToPercent (some (.num 3000)) = some (3000 / 10000) :=
  parseFeeToPercent_spec.1 3000 (by norm_num)

/-! ## C3: validation -/

/-- **C3.**  `validatePool` rejects exactly on the spec's conditions (a
JS-falsy `id`, `name`, `baseAsset` or `pairType`; a non-numeric
`liquidityUsd` or `volumeUsd24h`; `liquidityUsd < MIN_LIQUIDITY`;
`volumeUsd24h < MIN_VOLUME_24H`; `liquidityUsd ≤ 0`), so accepted pools
satisfy both thresholds and strict positivity, and `filterPools` keeps
exactly the accepted pools in input order ("absent" is modelled as JS-falsy:
a missing value, or the empty string for the string-valued fields). -/
theorem validatePool_spec :
    (∀ p : CanonicalPool,
      validatePool p = false ↔
        (truthyS p.id = false ∨ p.name = "" ∨ p.baseAsset = none ∨ p.pairType = none ∨
         p.liquidityUsd = none ∨ p.volumeUsd24h = none ∨
         (∃ liq, p.liquidityUsd = some liq ∧ (liq < MIN_LIQUIDITY ∨ liq ≤ 0)) ∨
         (∃ vol, p.volumeUsd24h = some vol ∧ vol < MIN_VOLUME_24H))) ∧
    (∀ p : CanonicalPool, validatePool p = true →
      ∃ liq vol : ℚ, p.liquidityUsd = some liq ∧ p.volumeUsd24h = some vol ∧
        MIN_LIQUIDITY ≤ liq ∧ MIN_VOLUME_24H ≤ vol ∧ 0 < liq) ∧
    (∀ pools : List CanonicalPool, (filterPools pools).Sublist pools) ∧
    (∀ (pools : List CanonicalPool) (p : CanonicalPool),
      p ∈ filterPools pools ↔ p ∈ pools ∧ validatePool p = true) := by
  refine ⟨?_, ?_, ?_, ?_⟩
  · intro p
    rcases hl : p.liquidityUsd with _ | liq <;> rcases hv : p.volumeUsd24h with _ | vol <;>
      cases hid : truthyS p.id <;> by_cases hn : p.name = "" <;>
      rcases hb : p.baseAsset with _ | b <;> rcases hpt : p.pairType with _ | pt <;>
      simp [validatePool, hl, hv, hid, hn, hb, hpt]
    constructor
    · intro h
      rcases lt_or_le liq MIN_LIQUIDITY with hA | hA
      · exact Or.inl (Or.inl hA)
      rcases lt_or_le vol MIN_VOLUME_24H with hB | hB
      · exact Or.inr hB
      exact Or.inl (Or.inr (h hA hB))
    · intro h hA hB
      rcases h with (h | h) | h
      · linarith
      · exact h
      · linarith
  · intro p hp
    rcases hl : p.liquidityUsd with _ | liq <;> rcases hv : p.volumeUsd24h with _ | vol <;>
      simp [validatePool, hl, hv] at hp
    exact ⟨liq, vol, rfl, rfl, hp.2.1, hp.2.2.1, hp.2.2.2⟩
  · intro pools
    exact List.filter_sublist pools
  · intro pools p
    simp [filterPools, List.mem_filter]

/-- Witness for C3: a concrete accepted pool is above both thresholds. -/
theorem validatePool_spec_witness :
    ∃ liq vol : ℚ, demoPool.liquidityUsd = some liq ∧ demoPool.volumeUsd24h = some vol ∧
      MIN_LIQUIDITY ≤ liq ∧ MIN_VOLUME_24H ≤ vol ∧ 0 < liq :=
  validatePool_spec.2.1 demoPool (by with_unfolding_all decide)

/-! ## C4: turnover score -/

/-- **C4.**  `calculateTurnoverScore` returns `volumeUsd24h / liquidityUsd`,
and `0` whenever `liquidityUsd ≤ 0`; a pool with liquidity $1,000,000 and
24h volume $250,000 scores exactly `0.25`. -/
theorem calculateTurnoverScore_spec :
    (∀ (p : CanonicalPool) (liq vol : ℚ), p.liquidityUsd = some liq →
      p.volumeUsd24h = some vol →
      (liq ≤ 0 → calculateTurnoverScore p = some 0) ∧
      (0 < liq → calculateTurnoverScore p = some (vol / liq))) ∧
    (∀ p : CanonicalPool, p.liquidityUsd = some 1000000 →
      p.volumeUsd24h = some 250000 → calculateTurnoverScore p = some (1/4)) := by
  have hmain : ∀ (p : CanonicalPool) (liq vol : ℚ), p.liquidityUsd = some liq →
      p.volumeUsd24h = some vol →
      (liq ≤ 0 → calculateTurnoverScore p = some 0) ∧
      (0 < liq → calculateTurnoverScore p = some (vol / liq)) := by
    intro p liq vol hl hv
    constructor
    · intro hle
      simp [calculateTurnoverScore, hl, hv, hle]
    · intro hlt
      have : ¬ liq ≤ 0 := not_le.mpr hlt
      simp [calculateTurnoverScore, hl, hv, this]
  refine ⟨hmain, ?_⟩
  intro p hl hv
  have h := (hmain p 1000000 250000 hl hv).2 (by norm_num)
  rw [h]
  norm_num

/-- Witness for C4 at a concrete pool. -/
theorem calculateTurnoverScore_spec_witness :
    calculateTurnoverScore demoPool = some (50000 / 500000) :=
  (calculateTurnoverScore_spec.1 demoPool 500000 50000 rfl rfl).2 (by norm_num)

/-! ## Ordering infrastructure for C5/C8 -/

/-- `rankLE` is total. -/
theorem rankLE_total (a b : CanonicalPool) : rankLE a b = true ∨ rankLE b a = true := by
  unfold rankLE
  by_cases h : scoreKey a = scoreKey b
  · rw [if_pos h, if_pos h.symm]
    simp only [decide_eq_true_eq]
    exact le_total _ _
  · have h' : ¬ scoreKey b = scoreKey a := fun hh => h hh.symm
    rw [if_neg h, if_neg h']
    simp only [decide_eq_true_eq]
    exact (Ne.lt_or_lt h).symm

/-- `rankLE` is transitive. -/
theorem rankLE_trans {a b c : CanonicalPool} (hab : rankLE a b = true)
    (hbc : rankLE b c = true) : rankLE a c = true := by
  unfold rankLE at hab hbc ⊢
  by_cases h1 : scoreKey a = scoreKey b <;> by_cases h2 : scoreKey b = scoreKey c
  · rw [if_pos h1] at hab
    rw [if_pos h2] at hbc
    rw [if_pos (h1.trans h2)]
    simp only [decide_eq_true_eq] at hab hbc ⊢
    exact le_trans hbc hab
  · rw [if_pos h1] at hab
    rw [if_neg h2] at hbc
    rw [if_neg (by rw [h1]; exact h2)]
    simp only [decide_eq_true_eq] at hab hbc ⊢
    rwa [h1]
  · rw [if_neg h1] at hab
    rw [if_pos h2] at hbc
    rw [if_neg (fun hh => h1 (hh.trans h2.symm))]
    simp only [decide_eq_true_eq] at hab hbc ⊢
    rwa [← h2]
  · rw [if_neg h1] at hab
    rw [if_neg h2] at hbc
    simp only [decide_eq_true_eq] at hab hbc
    by_cases h3 : scoreKey a = scoreKey c
    · exfalso
      have hcc := lt_trans hbc hab
      rw [h3] at hcc
      exact lt_irrefl _ hcc
    · rw [if_neg h3]
      simp only [decide_eq_true_eq]
      exact lt_trans hbc hab

/-- `rankInsert` permutes. -/
theorem rankInsert_perm (x : CanonicalPool) (l : List CanonicalPool) :
    (rankInsert x l).Perm (x :: l) := by
  induction l with
  | nil => simp [rankInsert]
  | cons y ys ih =>
    unfold rankInsert
    split
    · exact List.Perm.refl _
    · exact ((ih.cons y).trans (List.Perm.swap x y ys))

/-- `rankSort` permutes. -/
theorem rankSort_perm (l : List CanonicalPool) : (rankSort l).Perm l := by
  induction l with
  | nil => simp [rankSort]
  | cons x xs ih =>
    exact (rankInsert_perm x (rankSort xs)).trans (ih.cons x)

/-- Inserting below a `rankLE`-lower bound keeps the bound. -/
theorem rankInsert_forall {x y : CanonicalPool} {l : List CanonicalPool}
    (hy : rankLE y x = true) (hl : ∀ z ∈ l, rankLE y z = true) :
    ∀ z ∈ rankInsert x l, rankLE y z = true := by
  intro z hz
  rcases List.mem_cons.mp ((rankInsert_perm x l).mem_iff.mp hz) with rfl | h
  · exact hy
  · exact hl z h

/-- `rankInsert` preserves `Pairwise rankLE`. -/
theorem rankInsert_pairwise {x : CanonicalPool} {l : List CanonicalPool}
    (hl : l.Pairwise (fun a b => rankLE a b = true)) :
    (rankInsert x l).Pairwise (fun a b => rankLE a b = true) := by
  induction l with
  | nil => simp [rankInsert]
  | cons y ys ih =>
    rw [List.pairwise_cons] at hl
    unfold rankInsert
    split
    · rename_i hxy
      refine List.Pairwise.cons ?_ (List.Pairwise.cons hl.1 hl.2)
      intro z hz
      rcases List.mem_cons.mp hz with rfl | hz'
      · exact hxy
      · exact rankLE_trans hxy (hl.1 z hz')
    · rename_i hxy
      have hyx : rankLE y x = true := by
        rcases rankLE_total x y with h | h
        · exact absurd h hxy
        · exact h
      exact List.Pairwise.cons (rankInsert_forall hyx hl.1) (ih hl.2)

/-- `rankSort` sorts w.r.t. `rankLE`. -/
theorem rankSort_pairwise (l : List CanonicalPool) :
    (rankSort l).Pairwise (fun a b => rankLE a b = true) := by
  induction l with
  | nil => simp [rankSort]
  | cons x xs ih => exact rankInsert_pairwise ih

/-- When `x` may not stay before `y`, their two sort keys differ. -/
theorem rankKey_ne_of_not_rankLE {x y : CanonicalPool} (h : rankLE x y = false) :
    ¬ (scoreKey y = scoreKey x ∧ liqKey y = liqKey x) := by
  rintro ⟨hs, hq⟩
  unfold rankLE at h
  rw [hs, if_pos rfl, hq] at h
  simp at h

/-- Filtering by an exact sort key commutes with `rankInsert`. -/
theorem sameRankKey_eq_true {s q : ℚ} {p : CanonicalPool} :
    sameRankKey s q p = true ↔ (scoreKey p = s ∧ liqKey p = q) := by
  simp [sameRankKey]

/-- Inserting into a list splits the key-filtered view at the front or not
at all. -/
theorem rankInsert_filter (x : CanonicalPool) (l : List CanonicalPool) (s q : ℚ) :
    (rankInsert x l).filter (sameRankKey s q) =
      (if sameRankKey s q x then x :: l.filter (sameRankKey s q)
       else l.filter (sameRankKey s q)) := by
  induction l with
  | nil =>
    cases hsx : sameRankKey s q x <;> simp [rankInsert, List.filter_cons, hsx]
  | cons y ys ih =>
    unfold rankInsert
    split
    · cases hsx : sameRankKey s q x <;> simp [List.filter_cons, hsx]
    · rename_i hxy
      have hxy' : rankLE x y = false := by
        simp only [Bool.not_eq_true] at hxy
        exact hxy
      cases hsx : sameRankKey s q x
      · cases hsy : sameRankKey s q y <;> simp [List.filter_cons, hsx, hsy, ih]
      · have hsy : sameRankKey s q y = false := by
          cases hsy0 : sameRankKey s q y
          · rfl
          · exfalso
            rcases sameRankKey_eq_true.mp hsy0 with ⟨hy1, hy2⟩
            rcases sameRankKey_eq_true.mp hsx with ⟨hx1, hx2⟩
            exact rankKey_ne_of_not_rankLE hxy' ⟨hy1.trans hx1.symm, hy2.trans hx2.symm⟩
        simp [List.filter_cons, hsx, hsy, ih]

/-- `rankSort` is stable: filtering by an exact sort key returns those
entries in their original order. -/
theorem rankSort_filter (l : List CanonicalPool) (s q : ℚ) :
    (rankSort l).filter (sameRankKey s q) = l.filter (sameRankKey s q) := by
  induction l with
  | nil => rfl
  | cons x xs ih =>
    rw [rankSort, rankInsert_filter, ih]
    cases hsx : sameRankKey s q x <;> simp [List.filter_cons, hsx]

/-- `rankLE` implies non-increasing score. -/
theorem rankLE_score_le {a b : CanonicalPool} (h : rankLE a b = true) :
    scoreKey b ≤ scoreKey a := by
  unfold rankLE at h
  by_cases he : scoreKey a = scoreKey b
  · exact le_of_eq he.symm
  · rw [if_neg he] at h
    simp only [decide_eq_true_eq] at h
    exact le_of_lt h

/-- `rankLE` implies non-increasing liquidity on equal scores. -/
theorem rankLE_liq_le {a b : CanonicalPool} (h : rankLE a b = true)
    (he : scoreKey a = scoreKey b) : liqKey b ≤ liqKey a := by
  unfold rankLE at h
  rw [if_pos he] at h
  simpa using h

/-! ## C5: sort order and stability -/

/-- **C5.**  `scoreAndRankPools` returns a list with non-increasing score;
adjacent entries with equal score have non-increasing liquidity; entries with
identical score and liquidity keep the relative order of the (scored) input;
and every returned pool carries a computed score. -/
theorem scoreAndRankPools_ordering (pools : List CanonicalPool)
    (hnum : ∀ p ∈ pools, p.liquidityUsd ≠ none ∧ p.volumeUsd24h ≠ none) :
    ((scoreAndRankPools pools).Pairwise fun a b => scoreKey b ≤ scoreKey a) ∧
    ((scoreAndRankPools pools).Chain' fun a b =>
      scoreKey a = scoreKey b → liqKey b ≤ liqKey a) ∧
    (∀ s q : ℚ,
      (scoreAndRankPools pools).filter (sameRankKey s q) =
        (pools.map scorePool).filter (sameRankKey s q)) ∧
    (∀ p ∈ scoreAndRankPools pools, ∃ sc : ℚ, p.score = some sc) := by
  refine ⟨?_, ?_, ?_, ?_⟩
  · exact (rankSort_pairwise _).imp fun hab => rankLE_score_le hab
  · exact List.Chain'.imp (fun a b hab he => rankLE_liq_le hab he)
      ((rankSort_pairwise _).chain')
  · intro s q
    exact rankSort_filter _ s q
  · intro p hp
    have hp' : p ∈ pools.map scorePool := (rankSort_perm _).mem_iff.mp hp
    rcases List.mem_map.mp hp' with ⟨a, ha, rfl⟩
    rcases hnum a ha with ⟨hl, hv⟩
    rcases hal : a.liquidityUsd with _ | liq
    · exact absurd hal hl
    rcases hav : a.volumeUsd24h with _ | vol
    · exact absurd hav hv
    show ∃ sc, calculateTurnoverScore a = some sc
    unfold calculateTurnoverScore
    rw [hal, hav]
    by_cases h0 : liq ≤ 0 <;> simp [h0]

/-- Witness for C5 on a concrete two-pool list. -/
theorem scoreAndRankPools_ordering_witness :
    (scoreAndRankPools [demoPool, demoPoolB]).Pairwise
      (fun a b => scoreKey b ≤ scoreKey a) :=
  (scoreAndRankPools_ordering [demoPool, demoPoolB] (by decide)).1

/-! ## C8: APR computation -/

/-- The effective fee is never `0`: a truthy fee tier is nonzero, and the
configured default `0.3` is nonzero. -/
theorem jsEffectiveFee_ne_zero (ft : Option ℚ) : jsEffectiveFee ft ≠ 0 := by
  unfold jsEffectiveFee DEFAULT_FEE_PERCENT
  rcases ft with _ | f
  · norm_num
  · by_cases hf : f = 0 <;> simp [hf]

/-- **C8 counterexample.**  For `feeZeroPool` (non-null `feeTier = 0`) the
scorer computes `apr = 27.375` using the default fee `0.3` — `feeTier || …`
is falsy at `0` — while the claim's formula with `fee = feeTier = 0` yields
`0`. -/
theorem apr_zero_feeTier_counterexample :
    feeZeroPool.feeTier = some 0 ∧
    ((scoreAndRankPools [feeZeroPool]).map fun p => p.apr) = [some (219/8)] ∧
    (250000 * ((0 : ℚ) / 100)) * 365 / 1000000 * 100 = 0 ∧
    (219/8 : ℚ) ≠ 0 := by
  refine ⟨rfl, ?_, by norm_num, by norm_num⟩
  show [(scorePool feeZeroPool).apr] = [some (219/8)]
  have h1 : (scorePool feeZeroPool).apr =
      calculateApr feeZeroPool.volumeUsd24h feeZeroPool.liquidityUsd
        (jsEffectiveFee feeZeroPool.feeTier) := rfl
  have h2 : jsEffectiveFee feeZeroPool.feeTier = 3/10 := by
    show jsEffectiveFee (some 0) = 3/10
    simp [jsEffectiveFee, DEFAULT_FEE_PERCENT]
  rw [h1, h2]
  show [calculateApr (some 250000) (some 1000000) (3/10)] = [some (219/8)]
  unfold calculateApr
  norm_num

/-- **C8 (amended).**  Every scored pool's `apr` equals
`((volumeUsd24h * (fee/100)) * 365 / liquidityUsd) * 100` where `fee` is
`feeTier` when that is non-null *and nonzero*, and the configured default
`0.3` when `feeTier` is null *or zero* (JS `||` treats `0` as absent); when
`liquidityUsd ≤ 0` the apr is `0` instead. -/
theorem scoreAndRankPools_apr (pools : List CanonicalPool)
    (hnum : ∀ p ∈ pools, p.liquidityUsd ≠ none ∧ p.volumeUsd24h ≠ none) :
    ∀ q ∈ scoreAndRankPools pools, ∃ liq vol : ℚ,
      q.liquidityUsd = some liq ∧ q.volumeUsd24h = some vol ∧
      q.apr = some (if liq ≤ 0 then 0
        else vol * (jsEffectiveFee q.feeTier / 100) * 365 / liq * 100) := by
  intro q hq
  have hq' : q ∈ pools.map scorePool := (rankSort_perm _).mem_iff.mp hq
  rcases List.mem_map.mp hq' with ⟨a, ha, rfl⟩
  rcases hnum a ha with ⟨hl, hv⟩
  rcases hal : a.liquidityUsd with _ | liq
  · exact absurd hal hl
  rcases hav : a.volumeUsd24h with _ | vol
  · exact absurd hav hv
  refine ⟨liq, vol, hal, hav, ?_⟩
  show calculateApr a.volumeUsd24h a.liquidityUsd (jsEffectiveFee a.feeTier) = _
  rw [hal, hav]
  unfold calculateApr
  by_cases h0 : liq ≤ 0
  · by_cases hz : liq = 0 <;> simp [hz, h0]
  · have hz : ¬ liq = 0 := fun hh => h0 (le_of_eq hh)
    have hfz : ¬ jsEffectiveFee a.feeTier = 0 := jsEffectiveFee_ne_zero _
    simp [hz, h0, hfz]
    rfl

/-- Witness for C8 (amended) at the concrete `feeZeroPool`. -/
theorem scoreAndRankPools_apr_witness :
    ∃ liq vol : ℚ,
      (scorePool feeZeroPool).liquidityUsd = some liq ∧
      (scorePool feeZeroPool).volumeUsd24h = some vol ∧
      (scorePool feeZeroPool).apr = some (if liq ≤ 0 then 0
        else vol * (jsEffectiveFee (scorePool feeZeroPool).feeTier / 100) * 365 / liq * 100) :=
  scoreAndRankPools_apr [feeZeroPool] (by decide) (scorePool feeZeroPool)
    (show scorePool feeZeroPool ∈ [scorePool feeZeroPool] from List.mem_singleton.mpr rfl)

/-! ## C6: wrapped pairs survive normalization unswapped -/

/-- **C6.**  A GT record detected as a wrapped pair (same `BTC`/`ETH` class on
both sides, distinct alias-matching symbols) is normalized — never rejected
by the same-class guard — with `pairType = wrapped` and with base/quote left
in their resolved, unswapped orientation; in particular the `wbtc`/`tbtc`
record normalizes to a valid wrapped `BTC`/`BTC` pool.  (Wrapped detection is
computed before the orientation step, which is skipped for wrapped pairs.) -/
theorem wrapped_pair_normalization :
    (∀ (fresh : String) (pool : RawRecord), gtWrappedRaw pool = true →
      ∃ q : CanonicalPool, normalizeGeckoTerminalPool fresh pool = some q ∧
        q.pairType = some PairType.wrapped ∧
        q.baseAsset = resolveAssetClass (jsOrS pool.baseTokenSymbol "") ∧
        q.quoteAsset = resolveAssetClass (jsOrS pool.quoteTokenSymbol "")) ∧
    ((normalizeGeckoTerminalPool "r0" wbtcTbtcRecord).map
        (fun q => (q.pairType, q.baseAsset, q.quoteAsset, validatePool q)) =
      some (some PairType.wrapped, some AssetClass.BTC, some AssetClass.BTC, true)) := by
  constructor
  · intro fresh pool hw
    have hwb : isWrappedPairOf (resolveAssetClass (jsOrS pool.baseTokenSymbol ""))
        (resolveAssetClass (jsOrS pool.quoteTokenSymbol ""))
        (jsOrS pool.baseTokenSymbol "") (jsOrS pool.quoteTokenSymbol "") = true := hw
    unfold gtWrappedRaw isWrappedPairOf at hw
    simp only [Bool.and_eq_true, decide_eq_true_eq] at hw
    obtain ⟨⟨heq, hbe⟩, _⟩ := hw
    simp only [normalizeGeckoTerminalPool, hwb, Bool.not_true, Bool.false_and,
      Bool.false_eq_true, if_false]
    rw [← heq]
    rcases hbe with hb | hb <;> rw [hb] <;>
      simp [determinePairType]
  · with_unfolding_all decide

/-- Witness for C6: the theorem applied to the `wbtc`/`tbtc` record. -/
theorem wrapped_pair_normalization_witness :
    ∃ q : CanonicalPool, normalizeGeckoTerminalPool "r1" wbtcTbtcRecord = some q ∧
      q.pairType = some PairType.wrapped ∧
      q.baseAsset = resolveAssetClass (jsOrS wbtcTbtcRecord.baseTokenSymbol "") ∧
      q.quoteAsset = resolveAssetClass (jsOrS wbtcTbtcRecord.quoteTokenSymbol "") :=
  wrapped_pair_normalization.1 "r1" wbtcTbtcRecord (by with_unfolding_all decide)

/-! ## C7: deduplication -/

/-- Every pool the dedup loop emits has an id outside the incoming seen set. -/
theorem normAux_id_avoid (supply : ℕ → String) :
    ∀ (l : List RawRecord) (k : ℕ) (seen : List (Option String)),
      ∀ p ∈ normalizeAllPoolsAux supply l k seen, p.id ∉ seen := by
  intro l
  induction l with
  | nil =>
    intro k seen p hp
    simp [normalizeAllPoolsAux] at hp
  | cons r rest ih =>
    intro k seen p hp
    rcases hno : normalizeOne supply k r with ⟨n, k1⟩
    rcases n with _ | q
    · simp only [normalizeAllPoolsAux, hno] at hp
      exact ih k1 seen p hp
    · simp only [normalizeAllPoolsAux, hno] at hp
      by_cases hmem : q.id ∈ seen
      · rw [if_pos hmem] at hp
        exact ih k1 seen p hp
      · rw [if_neg hmem] at hp
        rcases List.mem_cons.mp hp with rfl | hp'
        · exact hmem
        · have hav := ih k1 (q.id :: seen) p hp'
          intro hin
          exact hav (List.mem_cons_of_mem _ hin)

/-- The dedup loop emits pairwise-distinct ids. -/
theorem normAux_nodup (supply : ℕ → String) :
    ∀ (l : List RawRecord) (k : ℕ) (seen : List (Option String)),
      ((normalizeAllPoolsAux supply l k seen).map (fun p => p.id)).Nodup := by
  intro l
  induction l with
  | nil =>
    intro k seen
    simp [normalizeAllPoolsAux]
  | cons r rest ih =>
    intro k seen
    rcases hno : normalizeOne supply k r with ⟨n, k1⟩
    rcases n with _ | q
    · simp only [normalizeAllPoolsAux, hno]
      exact ih k1 seen
    · simp only [normalizeAllPoolsAux, hno]
      by_cases hmem : q.id ∈ seen
      · rw [if_pos hmem]
        exact ih k1 seen
      · rw [if_neg hmem]
        simp only [List.map_cons, List.nodup_cons]
        refine ⟨?_, ih k1 (q.id :: seen)⟩
        intro hin
        rcases List.mem_map.mp hin with ⟨p, hp, hpid⟩
        have hav := normAux_id_avoid supply rest k1 (q.id :: seen) p hp
        exact hav (by rw [hpid]; exact List.mem_cons_self _ _)

/-- What the loop keeps for each id value: nothing if the id was already
seen, else the first record of the pre-dedup sequence carrying it. -/
theorem normAux_filter (supply : ℕ → String) :
    ∀ (l : List RawRecord) (k : ℕ) (seen : List (Option String)) (key : Option String),
      (normalizeAllPoolsAux supply l k seen).filter (fun p => decide (p.id = key)) =
        (if key ∈ seen then []
         else ((normalizedSeq supply l k).filter (fun p => decide (p.id = key))).take 1) := by
  intro l
  induction l with
  | nil =>
    intro k seen key
    simp [normalizeAllPoolsAux, normalizedSeq]
  | cons r rest ih =>
    intro k seen key
    rcases hno : normalizeOne supply k r with ⟨n, k1⟩
    rcases n with _ | q
    · simp only [normalizeAllPoolsAux, normalizedSeq, hno]
      exact ih k1 seen key
    · simp only [normalizeAllPoolsAux, normalizedSeq, hno]
      by_cases hmem : q.id ∈ seen
      · rw [if_pos hmem, ih]
        by_cases hkey : key ∈ seen
        · rw [if_pos hkey, if_pos hkey]
        · rw [if_neg hkey, if_neg hkey]
          have hqk : ¬ (q.id = key) := fun hh => hkey (hh ▸ hmem)
          rw [List.filter_cons]
          simp [hqk]
      · rw [if_neg hmem]
        by_cases hqk : q.id = key
        · subst hqk
          have hfaux : List.filter (fun p => decide (p.id = q.id))
              (normalizeAllPoolsAux supply rest k1 (q.id :: seen)) = [] := by
            rw [ih k1 (q.id :: seen) q.id, if_pos (List.mem_cons_self _ _)]
          simp [List.filter_cons, hfaux]
          rw [if_neg hmem]
        · have hiff : (key ∈ q.id :: seen) ↔ key ∈ seen := by
            constructor
            · intro hh
              rcases List.mem_cons.mp hh with hh' | hh'
              · exact absurd hh'.symm hqk
              · exact hh'
            · exact List.mem_cons_of_mem _
          have hdq : (decide (q.id = key)) = false := by
            simp [hqk]
          rw [List.filter_cons, hdq]
          simp only [Bool.false_eq_true, if_false]
          rw [ih k1 (q.id :: seen) key]
          by_cases hkey : key ∈ seen
          · rw [if_pos (hiff.mpr hkey), if_pos hkey]
          · rw [if_neg (fun hh => hkey (hiff.mp hh)), if_neg hkey, List.filter_cons, hdq]
            simp only [Bool.false_eq_true, if_false]

/-- **C7.**  The normalizer output has pairwise-distinct ids; for each id
value exactly the first-seen normalized record is kept and later duplicates
are dropped; two records from different sources resolving to the same id
yield exactly one pool. -/
theorem normalizeAllPools_dedup :
    (∀ (supply : ℕ → String) (rawPools : List RawRecord),
      ((normalizeAllPools supply rawPools).map (fun p => p.id)).Nodup) ∧
    (∀ (supply : ℕ → String) (rawPools : List RawRecord) (key : Option String),
      (normalizeAllPools supply rawPools).filter (fun p => decide (p.id = key)) =
        ((normalizedSeq supply rawPools 0).filter (fun p => decide (p.id = key))).take 1) ∧
    ((normalizeAllPools (fun _ => "z") [gtDupRecord, dsDupRecord]).map (fun p => p.id) =
      [some "shared-id"]) := by
  refine ⟨?_, ?_, ?_⟩
  · intro supply rawPools
    exact normAux_nodup supply rawPools 0 []
  · intro supply rawPools key
    have h := normAux_filter supply rawPools 0 [] key
    rwa [if_neg (List.not_mem_nil key)] at h
  · with_unfolding_all decide

/-! ## C10: unknown provenance tags are silently excluded -/

/-- A record whose `_source` is neither recognized adapter tag is skipped by
the dedup loop without consuming anything. -/
theorem normAux_skip (supply : ℕ → String) (r : RawRecord)
    (h1 : r.source ≠ some "GeckoTerminal") (h2 : r.source ≠ some "DexScreener") :
    ∀ (xs ys : List RawRecord) (k : ℕ) (seen : List (Option String)),
      normalizeAllPoolsAux supply (xs ++ r :: ys) k seen =
        normalizeAllPoolsAux supply (xs ++ ys) k seen := by
  intro xs
  induction xs with
  | nil =>
    intro ys k seen
    have hno : normalizeOne supply k r = (none, k) := by
      unfold normalizeOne
      rw [if_neg h1, if_neg h2]
    simp only [List.nil_append, normalizeAllPoolsAux, hno]
  | cons x xs ih =>
    intro ys k seen
    rcases hno : normalizeOne supply k x with ⟨n, k1⟩
    rcases n with _ | q
    · simp only [List.cons_append, normalizeAllPoolsAux, hno]
      exact ih ys k1 seen
    · simp only [List.cons_append, normalizeAllPoolsAux, hno]
      by_cases hmem : q.id ∈ seen
      · rw [if_pos hmem, if_pos hmem]
        exact ih ys k1 seen
      · rw [if_neg hmem, if_neg hmem]
        exact congrArg _ (ih ys k1 (q.id :: seen))

/-- **C10.**  `normalizeAllPools` silently excludes every raw record whose
`_source` is neither `'GeckoTerminal'` nor `'DexScreener'`: removing such a
record from the input, whatever its other content, leaves the output
unchanged. -/
theorem normalizeAllPools_unknown_source (supply : ℕ → String)
    (xs ys : List RawRecord) (r : RawRecord)
    (h1 : r.source ≠ some "GeckoTerminal") (h2 : r.source ≠ some "DexScreener") :
    normalizeAllPools supply (xs ++ r :: ys) = normalizeAllPools supply (xs ++ ys) :=
  normAux_skip supply r h1 h2 xs ys 0 []

/-- Witness for C10: dropping a DeFiLlama-tagged record changes nothing. -/
theorem normalizeAllPools_unknown_source_witness :
    normalizeAllPools (fun _ => "w") ([] ++ unknownSourceRecord :: [gtDupRecord]) =
      normalizeAllPools (fun _ => "w") ([] ++ [gtDupRecord]) :=
  normalizeAllPools_unknown_source (fun _ => "w") [] [gtDupRecord] unknownSourceRecord
    (by decide) (by decide)

/-! ## C9: determinism of the pipeline -/

/-- When the record carries a truthy native id, the synthesized-id argument
is irrelevant to GT normalization. -/
theorem normalizeGT_supply_ignored {pool : RawRecord} (hid : truthyS pool.id = true)
    (f1 f2 : String) :
    normalizeGeckoTerminalPool f1 pool = normalizeGeckoTerminalPool f2 pool := by
  simp [normalizeGeckoTerminalPool, hid]

/-- The dedup loop is independent of the random supply when every GT record
carries a truthy native id. -/
theorem normAux_supply (s1 s2 : ℕ → String) :
    ∀ (l : List RawRecord),
      (∀ r ∈ l, r.source = some "GeckoTerminal" → truthyS r.id = true) →
      ∀ (k : ℕ) (seen : List (Option String)),
        normalizeAllPoolsAux s1 l k seen = normalizeAllPoolsAux s2 l k seen := by
  intro l
  induction l with
  | nil => intro _ k seen; rfl
  | cons r rest ih =>
    intro h k seen
    have hrest := fun r hr => h r (List.mem_cons_of_mem _ hr)
    have hone : normalizeOne s1 k r = normalizeOne s2 k r := by
      unfold normalizeOne
      by_cases hg : r.source = some "GeckoTerminal"
      · rw [if_pos hg, if_pos hg,
          normalizeGT_supply_ignored (h r (List.mem_cons_self _ _) hg) (s1 k) (s2 k)]
      · rw [if_neg hg, if_neg hg]
    rcases hno : normalizeOne s2 k r with ⟨n, k1⟩
    have hone1 : normalizeOne s1 k r = (n, k1) := by rw [hone, hno]
    rcases n with _ | q
    · simp only [normalizeAllPoolsAux, hno, hone1]
      exact ih hrest k1 seen
    · simp only [normalizeAllPoolsAux, hno, hone1]
      by_cases hmem : q.id ∈ seen
      · rw [if_pos hmem, if_pos hmem]
        exact ih hrest k1 seen
      · rw [if_neg hmem, if_neg hmem, ih hrest k1 (q.id :: seen)]

/-- **C9 counterexample.**  The claim fails as stated: a GT record with no
native id gets a `Math.random()`-synthesized id, so two runs over the same
raw dataset can produce categorized outputs that differ (in the id field). -/
theorem pipeline_random_id_counterexample :
    runPipeline (fun _ => "a") [noIdRecord] ≠ runPipeline (fun _ => "b") [noIdRecord] := by
  intro h
  have ha : (runPipeline (fun _ => "a") [noIdRecord]).btcStable.map (fun p => p.id) =
      [some "gt-a"] := by
    with_unfolding_all decide
  have hb : (runPipeline (fun _ => "b") [noIdRecord]).btcStable.map (fun p => p.id) =
      [some "gt-b"] := by
    with_unfolding_all decide
  rw [h, hb] at ha
  exact absurd ha (by decide)

/-- **C9 (amended).**  The pipeline is a deterministic function of the raw
input together with the synthesized-id supply; whenever every GeckoTerminal
record carries a truthy native id the supply is irrelevant, so re-running
the unchanged dataset yields an identical categorized output. -/
theorem pipeline_deterministic (s1 s2 : ℕ → String) (rawPools : List RawRecord)
    (hid : ∀ r ∈ rawPools, r.source = some "GeckoTerminal" → truthyS r.id = true) :
    runPipeline s1 rawPools = runPipeline s2 rawPools := by
  unfold runPipeline normalizeAllPools
  rw [normAux_supply s1 s2 rawPools hid 0 []]

/-- Witness for C9 (amended) on a concrete id-carrying record. -/
theorem pipeline_deterministic_witness :
    runPipeline (fun _ => "a") [gtDupRecord] = runPipeline (fun _ => "b") [gtDupRecord] :=
  pipeline_deterministic (fun _ => "a") (fun _ => "b") [gtDupRecord] (by decide)

/-! ## C1: asset class resolution -/

/-- **C1 counterexample.**  `resolveAssetClass` tests substring containment,
not list membership: the symbol `wbtc2` belongs to no class's alias list, so
the claim says it resolves to null, yet the code returns `BTC` because the
alias `btc` occurs inside `wbtc2`. -/
theorem resolveAssetClass_substring_counterexample :
    resolveAssetClass "wbtc2" = some AssetClass.BTC ∧
    "wbtc2" ∉ ASSET_CLASSES AssetClass.BTC ∧
    "wbtc2" ∉ ASSET_CLASSES AssetClass.ETH ∧
    "wbtc2" ∉ ASSET_CLASSES AssetClass.STABLE := by
  with_unfolding_all decide

/-- **C1 (amended).**  `resolveAssetClass` lower-cases the symbol and returns
the first asset class (in `BTC`, `ETH`, `STABLE` order) for which some
curated alias occurs as a substring of the lowered symbol; it returns null
when no class's alias occurs in the symbol and for the empty/absent
symbol. -/
theorem resolveAssetClass_characterization :
    (∀ (s : String) (c : AssetClass),
      resolveAssetClass s = some c ↔
        (s ≠ "" ∧ classMatches c (jsToLower s) = true ∧
         ∀ c' : AssetClass, classIdx c' < classIdx c →
           classMatches c' (jsToLower s) = false)) ∧
    (∀ s : String,
      resolveAssetClass s = none ↔
        (s = "" ∨ ∀ c : AssetClass, classMatches c (jsToLower s) = false)) := by
  have hforall : ∀ P : AssetClass → Prop,
      (∀ c, P c) ↔ (P .BTC ∧ P .ETH ∧ P .STABLE) := by
    intro P
    constructor
    · intro h
      exact ⟨h _, h _, h _⟩
    · rintro ⟨hb, he, hs⟩ c
      cases c <;> assumption
  constructor
  · intro s c
    by_cases hs : s = ""
    · simp [resolveAssetClass, hs]
    · cases hB : classMatches .BTC (jsToLower s) <;>
        cases hE : classMatches .ETH (jsToLower s) <;>
        cases hS : classMatches .STABLE (jsToLower s) <;>
        cases c <;>
        simp [resolveAssetClass, hs, hB, hE, hS, hforall, classIdx]
  · intro s
    by_cases hs : s = ""
    · simp [resolveAssetClass, hs]
    · cases hB : classMatches .BTC (jsToLower s) <;>
        cases hE : classMatches .ETH (jsToLower s) <;>
        cases hS : classMatches .STABLE (jsToLower s) <;>
        simp [resolveAssetClass, hs, hB, hE, hS, hforall]

/-- Witness for C1 (amended): `usdc` resolves to `STABLE` through the
characterization. -/
theorem resolveAssetClass_characterization_witness :
    resolveAssetClass "usdc" = some AssetClass.STABLE :=
  (resolveAssetClass_characterization.1 "usdc" AssetClass.STABLE).mpr
    ⟨by decide, by with_unfolding_all decide, by
      intro c' hc'
      cases c'
      · with_unfolding_all decide
      · with_unfolding_all decide
      · exact absurd hc' (by decide)⟩
